import Mathlib

/-!
Verification of the MP4 atom-tree traversal engine of `src/MP4TagReader.js`
(jsmediatags). The file shallowly embeds the Tree Loader (`_loadAtom`), the
Value Decoder (`_readAtom` / `_parseData`) and the static lookup tables
(`ATOMS`, `TYPES`), together with the byte-source read primitives that the
specification fixes at its interface boundary (spec section 6), and proves or
refutes the frozen claims about them.

Bytes are modelled as a `List Nat`; the recursive traversals take an explicit
fuel argument (every step strictly advances the scan position, so any fuel
larger than the file length is sufficient; the theorems quantify over fuel).
-/

namespace MP4

/-- Modelled from the spec: `readByteAt(offset)` of the byte-source
collaborator (the reader class is not part of `src/`; spec section 6 is its
interface). Reads outside the loaded data are modelled as the byte 0. -/
def getByteAt (data : List Nat) (offset : Nat) : Nat :=
  data.getD offset 0

/-- Modelled from the spec: `readUint32At(offset, littleEndianFlag)` (spec
section 6). Per the data model (spec section 3) the atom size field is read
with byte-order reversal relative to the physical format, so the flag set to
true selects the little-endian combination of the four bytes. -/
def getLongAt (data : List Nat) (offset : Nat) (littleEndian : Bool) : Nat :=
  if littleEndian then
    getByteAt data offset + 256 * getByteAt data (offset + 1) +
      65536 * getByteAt data (offset + 2) + 16777216 * getByteAt data (offset + 3)
  else
    getByteAt data (offset + 3) + 256 * getByteAt data (offset + 2) +
      65536 * getByteAt data (offset + 1) + 16777216 * getByteAt data offset

/-- Modelled from the spec: `readUint16At(offset, bigEndianFlag)` (spec
section 6): the flag set to true selects big-endian, false little-endian. -/
def getShortAt (data : List Nat) (offset : Nat) (bigEndian : Bool) : Nat :=
  if bigEndian then
    256 * getByteAt data offset + getByteAt data (offset + 1)
  else
    getByteAt data offset + 256 * getByteAt data (offset + 1)

/-- Modelled from the spec: `readUint24At(offset, flag)` (spec section 6);
the flag is modelled as the little-endian selector, consistent with
`readUint32At(offset, littleEndianFlag)`. -/
def getInteger24At (data : List Nat) (offset : Nat) (littleEndian : Bool) : Nat :=
  if littleEndian then
    getByteAt data offset + 256 * getByteAt data (offset + 1) +
      65536 * getByteAt data (offset + 2)
  else
    getByteAt data (offset + 2) + 256 * getByteAt data (offset + 1) +
      65536 * getByteAt data offset

/-- Modelled from the spec: `readFixedStringAt(offset, length)` (spec
section 6) — one character per byte code, as `String.fromCharCode` produces
for the FourCC names. -/
def getStringAt (data : List Nat) (offset len : Nat) : String :=
  String.mk ((List.range len).map (fun i => Char.ofNat (getByteAt data (offset + i))))

/-- Modelled from the spec: `readTextAt(offset, length, charset)` (spec
section 6); charset decoding internals are out of scope (spec section 1), so
the "utf-8" decode is modelled as one character per byte code. -/
def getStringWithCharsetAt (data : List Nat) (offset len : Nat) : String :=
  getStringAt data offset len

/-- Modelled from the spec: `readRawBytesAt(offset, length)` (spec
section 6). -/
def getBytesAt (data : List Nat) (offset len : Nat) : List Nat :=
  (List.range len).map (fun i => getByteAt data (offset + i))

/-- The `TYPES` table of `MP4TagReader.js`: well-known type class code to
decode-strategy name. -/
def TYPES (klass : Nat) : Option String :=
  match klass with
  | 0 => some "uint8"
  | 1 => some "text"
  | 13 => some "jpeg"
  | 14 => some "png"
  | 21 => some "uint8"
  | _ => none

/-- The `ATOMS` table of `MP4TagReader.js`: FourCC to semantic field name. -/
def ATOMS (atomName : String) : Option (List String) :=
  match atomName with
  | "©alb" => some ["album"]
  | "©art" => some ["artist"]
  | "©ART" => some ["artist"]
  | "aART" => some ["artist"]
  | "©day" => some ["year"]
  | "©nam" => some ["title"]
  | "©gen" => some ["genre"]
  | "trkn" => some ["track"]
  | "©wrt" => some ["composer"]
  | "©too" => some ["encoder"]
  | "cprt" => some ["copyright"]
  | "covr" => some ["picture"]
  | "©grp" => some ["grouping"]
  | "keyw" => some ["keyword"]
  | "©lyr" => some ["lyrics"]
  | "©cmt" => some ["comment"]
  | "tmpo" => some ["tempo"]
  | "cpil" => some ["compilation"]
  | "disk" => some ["disc"]
  | _ => none

/-- `_isContainerAtom`: membership in the fixed container-name set. -/
def isContainerAtom (atomName : String) : Bool :=
  if atomName = "moov" ∨ atomName = "udta" ∨ atomName = "meta" ∨ atomName = "ilst" then
    true
  else
    false

/-- `_canReadAtom`: every FourCC except the unsupported marker. -/
def canReadAtom (atomName : String) : Bool :=
  if atomName = "----" then false else true

/-- Decoded tag values: JS stores strings, numbers, image records, the
`\x7btext: ...\x7d` wrapper used for `©cmt`, and the undefined value that an
unrecognized type class produces. -/
inductive AtomValue where
  | undef : AtomValue
  | nat : Nat → AtomValue
  | text : String → AtomValue
  | image : String → List Nat → AtomValue
  | wrapped : AtomValue → AtomValue
deriving DecidableEq, Repr

/-- The output tag mapping (a JS object): association list with
assignment-overwrites semantics. -/
abbrev Tag := List (String × AtomValue)

/-- JS property assignment `tag[key] = value`: replaces an existing binding
in place or appends a new one. -/
def setTag : Tag → String → AtomValue → Tag
  | [], key, value => [(key, value)]
  | (k, v) :: rest, key, value =>
    if k = key then (key, value) :: rest else (k, v) :: setTag rest key value

/-- JS property read `tag[key]`. -/
def lookupTag : Tag → String → Option AtomValue
  | [], _ => none
  | (k, v) :: rest, key => if k = key then some v else lookupTag rest key

/-- The `switch (type)` of `_readAtom`: decode the payload of a value atom at
`seek` per its type-table class (24 = 16 bytes of name/size/data-subatom
header + 4 bytes version/flags + 4 bytes locale). -/
def decodeAtomData (data : List Nat) (seek atomSize : Nat) : AtomValue :=
  match TYPES (getInteger24At data (seek + 16 + 1) true) with
  | some "text" => AtomValue.text (getStringWithCharsetAt data (seek + 24) (atomSize - 24))
  | some "uint8" => AtomValue.nat (getShortAt data (seek + 24) false)
  | some "jpeg" => AtomValue.image "image/jpeg" (getBytesAt data (seek + 24) (atomSize - 24))
  | some "png" => AtomValue.image "image/png" (getBytesAt data (seek + 24) (atomSize - 24))
  | _ => AtomValue.undef

/-- The value-atom storing step of `_readAtom`: the `trkn` special case, the
`©cmt` wrapper, and the general type-table dispatch. -/
def processValueAtom (data : List Nat) (tag : Tag) (seek atomSize : Nat)
    (atomName : String) : Tag :=
  if atomName = "trkn" then
    setTag (setTag tag "trkn" (AtomValue.nat (getByteAt data (seek + 16 + 11))))
      "count" (AtomValue.nat (getByteAt data (seek + 16 + 13)))
  else if atomName = "©cmt" then
    setTag tag "©cmt" (AtomValue.wrapped (decodeAtomData data seek atomSize))
  else
    setTag tag atomName (decodeAtomData data seek atomSize)

/-- The Value Decoder `_readAtom`, written as the single tail-recursive loop
it is in JS: `seek` is the loop variable, `stop = offset + length` the loop
bound. A container atom replaces the loop by the recursion into its child
span (the JS routine returns right after that recursive call); a value atom
is stored when the parent path is the metadata path and advances `seek` by
its declared size. Fuel only bounds the number of steps. -/
def readAtomLoop (data : List Nat) : Nat → Tag → Nat → Nat → String → Tag
  | 0, tag, _, _, _ => tag
  | fuel + 1, tag, seek, stop, path =>
    if seek < stop then
      if getLongAt data seek true = 0 then tag
      else
        if isContainerAtom (getStringAt data (seek + 4) 4) then
          readAtomLoop data fuel tag
            ((if getStringAt data (seek + 4) 4 = "meta" then seek + 4 else seek) + 8)
            ((if getStringAt data (seek + 4) 4 = "meta" then seek + 4 else seek) + 8 +
              (getLongAt data seek true - 8))
            ((if path = "" then "" else path ++ ".") ++ getStringAt data (seek + 4) 4)
        else
          readAtomLoop data fuel
            (if path = "moov.udta.meta.ilst" ∧
                canReadAtom (getStringAt data (seek + 4) 4) = true then
              processValueAtom data tag seek (getLongAt data seek true)
                (getStringAt data (seek + 4) 4)
            else tag)
            (seek + getLongAt data seek true) stop path
    else tag

/-- `_parseData`: one decoder pass over the whole source. The second argument
is the requested-fields list, which the source accepts and never uses. -/
def parseData (data : List Nat) (tags : Option (List String)) : Tag :=
  readAtomLoop data (data.length + 1) [] 0 data.length ""

/-- One byte-range request issued by the Tree Loader: the atom it was issued
for, the loader's parent-path string at that moment, whether the atom was
taken as a value atom, and the inclusive range bounds passed to
`loadRange`. -/
structure LoadStep where
  atomOffset : Nat
  atomPath : String
  isValue : Bool
  rangeStart : Nat
  rangeEnd : Nat
deriving DecidableEq, Repr

/-- Outcome of a Tree Loader run. -/
inductive LoadOutcome where
  | success : LoadOutcome
  | failure : LoadOutcome
  | fuelOut : LoadOutcome
deriving DecidableEq, Repr

/-- The Tree Loader `_loadAtom`: returns the list of byte-range requests it
issues, in order, and which callback it finally invokes. `fails r s` is the
oracle saying whether the underlying `loadRange([r, s], ...)` call invokes
its error callback; on failure the loader aborts at once. -/
def loadAtomGo (data : List Nat) (fails : Nat → Nat → Bool) :
    Nat → Nat → String → List LoadStep × LoadOutcome
  | 0, _, _ => ([], LoadOutcome.fuelOut)
  | fuel + 1, offset, path =>
    if data.length ≤ offset then ([], LoadOutcome.success)
    else if getLongAt data offset true = 0 then ([], LoadOutcome.success)
    else
      if isContainerAtom (getStringAt data (offset + 4) 4) then
        if fails ((if getStringAt data (offset + 4) 4 = "meta" then offset + 4 else offset) + 8)
            ((if getStringAt data (offset + 4) 4 = "meta" then offset + 4 else offset) + 8 + 8) then
          ([⟨offset, path, false,
              (if getStringAt data (offset + 4) 4 = "meta" then offset + 4 else offset) + 8,
              (if getStringAt data (offset + 4) 4 = "meta" then offset + 4 else offset) + 8 + 8⟩],
            LoadOutcome.failure)
        else
          (⟨offset, path, false,
              (if getStringAt data (offset + 4) 4 = "meta" then offset + 4 else offset) + 8,
              (if getStringAt data (offset + 4) 4 = "meta" then offset + 4 else offset) + 8 + 8⟩ ::
            (loadAtomGo data fails fuel
              ((if getStringAt data (offset + 4) 4 = "meta" then offset + 4 else offset) + 8)
              ((if path = "" then "" else path ++ ".") ++ getStringAt data (offset + 4) 4)).1,
            (loadAtomGo data fails fuel
              ((if getStringAt data (offset + 4) 4 = "meta" then offset + 4 else offset) + 8)
              ((if path = "" then "" else path ++ ".") ++ getStringAt data (offset + 4) 4)).2)
      else
        if fails (offset + (if path = "moov.udta.meta.ilst" then 0 else getLongAt data offset true))
            (offset + getLongAt data offset true + 8) then
          ([⟨offset, path, true,
              offset + (if path = "moov.udta.meta.ilst" then 0 else getLongAt data offset true),
              offset + getLongAt data offset true + 8⟩],
            LoadOutcome.failure)
        else
          (⟨offset, path, true,
              offset + (if path = "moov.udta.meta.ilst" then 0 else getLongAt data offset true),
              offset + getLongAt data offset true + 8⟩ ::
            (loadAtomGo data fails fuel (offset + getLongAt data offset true) path).1,
            (loadAtomGo data fails fuel (offset + getLongAt data offset true) path).2)

/-- Modelled from the spec: the section 3 `parentPath` of every atom in the
actual nesting structure — "dot-joined chain of ancestor atom names from the
root". A container's children start right after its 8-byte header (`meta`:
4 extra bytes for `next_item_id`) and extend to its declared end
`offset + size`; siblings continue after the declared end. Returns the pairs
(atom offset, parentPath). This definition exists to compare the loader's
accumulated path string against the specification's notion of ancestry; no
function in `src/` computes it. -/
def specAtomPaths (data : List Nat) : Nat → Nat → Nat → String → List (Nat × String)
  | 0, _, _, _ => []
  | fuel + 1, seek, stop, path =>
    if seek < stop then
      if getLongAt data seek true = 0 then []
      else
        (seek, path) ::
          ((if isContainerAtom (getStringAt data (seek + 4) 4) then
              specAtomPaths data fuel
                (if getStringAt data (seek + 4) 4 = "meta" then seek + 12 else seek + 8)
                (seek + getLongAt data seek true)
                ((if path = "" then "" else path ++ ".") ++ getStringAt data (seek + 4) 4)
            else []) ++
            specAtomPaths data fuel (seek + getLongAt data seek true) stop path)
    else []

/-- Sample source: `moov > udta > meta > ilst` containing one value atom with
the FourCC `abcd` (absent from `ATOMS`), type class 1 (text) and the two-byte
payload "AB". -/
def c2File : List Nat :=
  [62, 0, 0, 0, 109, 111, 111, 118,
   54, 0, 0, 0, 117, 100, 116, 97,
   46, 0, 0, 0, 109, 101, 116, 97,
   0, 0, 0, 0,
   34, 0, 0, 0, 105, 108, 115, 116,
   26, 0, 0, 0, 97, 98, 99, 100,
   0, 0, 0, 0, 100, 97, 116, 97,
   0, 1, 0, 0,
   0, 0, 0, 0,
   65, 66]

/-- Sample source: the metadata path containing one `tmpo` atom with type
class 21 (uint8) and payload bytes 1, 2 at the payload offset. -/
def c4File : List Nat :=
  [62, 0, 0, 0, 109, 111, 111, 118,
   54, 0, 0, 0, 117, 100, 116, 97,
   46, 0, 0, 0, 109, 101, 116, 97,
   0, 0, 0, 0,
   34, 0, 0, 0, 105, 108, 115, 116,
   26, 0, 0, 0, 116, 109, 112, 111,
   0, 0, 0, 0, 100, 97, 116, 97,
   0, 21, 0, 0,
   0, 0, 0, 0,
   1, 2]

/-- Sample source: the metadata path containing one value atom whose FourCC
is the unsupported marker `----`. -/
def dashFile : List Nat :=
  [62, 0, 0, 0, 109, 111, 111, 118,
   54, 0, 0, 0, 117, 100, 116, 97,
   46, 0, 0, 0, 109, 101, 116, 97,
   0, 0, 0, 0,
   34, 0, 0, 0, 105, 108, 115, 116,
   26, 0, 0, 0, 45, 45, 45, 45,
   0, 0, 0, 0, 100, 97, 116, 97,
   0, 1, 0, 0,
   0, 0, 0, 0,
   65, 66]

/-- Sample source: the metadata path containing one `trkn` atom whose bytes
at header offset +16+11 and +16+13 are 5 and 12. -/
def trknFile : List Nat :=
  [66, 0, 0, 0, 109, 111, 111, 118,
   58, 0, 0, 0, 117, 100, 116, 97,
   50, 0, 0, 0, 109, 101, 116, 97,
   0, 0, 0, 0,
   38, 0, 0, 0, 105, 108, 115, 116,
   30, 0, 0, 0, 116, 114, 107, 110,
   0, 0, 0, 0, 100, 97, 116, 97,
   0, 0, 0, 0,
   0, 0, 0, 0,
   0, 0, 0, 5, 0, 12]

/-- Sample source: a complete `moov > udta > meta > ilst > ©nam` chain
(moov spans bytes 0 to 52) followed by a root-level sibling value atom
`mdat` at offset 52 with size 16 and an 8-byte payload. -/
def c3File : List Nat :=
  [52, 0, 0, 0, 109, 111, 111, 118,
   44, 0, 0, 0, 117, 100, 116, 97,
   36, 0, 0, 0, 109, 101, 116, 97,
   0, 0, 0, 0,
   24, 0, 0, 0, 105, 108, 115, 116,
   16, 0, 0, 0, 169, 110, 97, 109,
   0, 0, 0, 0, 100, 97, 116, 97,
   16, 0, 0, 0, 109, 100, 97, 116,
   1, 2, 3, 4, 5, 6, 7, 8]

/-- Sample source: a single `meta` atom of declared size 20 whose child
region holds only zero bytes. -/
def metaFile : List Nat :=
  [20, 0, 0, 0, 109, 101, 116, 97, 0, 0, 0, 0, 0, 0, 0, 0, 0, 0, 0, 0]

/-- Reading `tag[key2]` after the assignment `tag[key] = value`. -/
theorem lookupTag_setTag (key : String) (value : AtomValue) :
    ∀ (tag : Tag) (key2 : String),
      lookupTag (setTag tag key value) key2 =
        if key2 = key then some value else lookupTag tag key2 := by
  intro tag
  induction tag with
  | nil =>
    intro key2
    simp only [setTag, lookupTag]
    by_cases h : key = key2
    · rw [if_pos h, if_pos h.symm]
    · rw [if_neg h, if_neg (fun hh => h hh.symm)]
  | cons p rest ih =>
    intro key2
    obtain ⟨k, v⟩ := p
    simp only [setTag]
    by_cases h1 : k = key
    · rw [if_pos h1]
      simp only [lookupTag]
      by_cases h2 : key = key2
      · rw [if_pos h2, if_pos h2.symm]
      · rw [if_neg h2, if_neg (fun hh => h2 hh.symm), if_neg (fun hh => h2 (h1.symm.trans hh))]
    · rw [if_neg h1]
      simp only [lookupTag, ih]
      by_cases h2 : k = key2
      · rw [if_pos h2, if_neg (fun hh => h1 (h2.trans hh)), if_pos h2]
      · rw [if_neg h2, if_neg h2]

/-- Assignment never removes an existing binding. -/
theorem lookupTag_setTag_isSome (tag : Tag) (key key2 : String) (value : AtomValue)
    (h : (lookupTag tag key2).isSome = true) :
    (lookupTag (setTag tag key value) key2).isSome = true := by
  rw [lookupTag_setTag]
  by_cases hk : key2 = key
  · rw [if_pos hk]; rfl
  · rw [if_neg hk]; exact h

/-- The storing step always leaves a binding under the atom name itself. -/
theorem processValueAtom_lookup_self (data : List Nat) (tag : Tag)
    (seek atomSize : Nat) (atomName : String) :
    (lookupTag (processValueAtom data tag seek atomSize atomName) atomName).isSome = true := by
  unfold processValueAtom
  by_cases h1 : atomName = "trkn"
  · rw [if_pos h1, h1, lookupTag_setTag, if_neg (by decide), lookupTag_setTag, if_pos rfl]
    rfl
  · rw [if_neg h1]
    by_cases h2 : atomName = "©cmt"
    · rw [if_pos h2, h2, lookupTag_setTag, if_pos rfl]; rfl
    · rw [if_neg h2, lookupTag_setTag, if_pos rfl]; rfl

/-- The storing step never removes an existing binding. -/
theorem processValueAtom_isSome (data : List Nat) (tag : Tag)
    (seek atomSize : Nat) (atomName key : String)
    (h : (lookupTag tag key).isSome = true) :
    (lookupTag (processValueAtom data tag seek atomSize atomName) key).isSome = true := by
  unfold processValueAtom
  by_cases h1 : atomName = "trkn"
  · rw [if_pos h1]; exact lookupTag_setTag_isSome _ _ _ _ (lookupTag_setTag_isSome _ _ _ _ h)
  · rw [if_neg h1]
    by_cases h2 : atomName = "©cmt"
    · rw [if_pos h2]; exact lookupTag_setTag_isSome _ _ _ _ h
    · rw [if_neg h2]; exact lookupTag_setTag_isSome _ _ _ _ h

/-- The decoder never removes an existing binding. -/
theorem readAtomLoop_isSome (data : List Nat) (key : String) :
    ∀ (fuel : Nat) (tag : Tag) (seek stop : Nat) (path : String),
      (lookupTag tag key).isSome = true →
      (lookupTag (readAtomLoop data fuel tag seek stop path) key).isSome = true := by
  intro fuel
  induction fuel with
  | zero => intro tag seek stop path h; exact h
  | succ n ih =>
    intro tag seek stop path h
    simp only [readAtomLoop]
    by_cases h1 : seek < stop
    · rw [if_pos h1]
      by_cases h2 : getLongAt data seek true = 0
      · rw [if_pos h2]; exact h
      · rw [if_neg h2]
        by_cases h3 : isContainerAtom (getStringAt data (seek + 4) 4) = true
        · rw [if_pos h3]; exact ih _ _ _ _ h
        · rw [if_neg h3]
          apply ih
          by_cases h4 : path = "moov.udta.meta.ilst" ∧
              canReadAtom (getStringAt data (seek + 4) 4) = true
          · rw [if_pos h4]; exact processValueAtom_isSome _ _ _ _ _ _ h
          · rw [if_neg h4]; exact h
    · rw [if_neg h1]; exact h

/-- C1: in the Value Decoder, a nesting level that encounters a container
atom (nonzero size, FourCC in the container set) ends there: the walk result
is exactly the recursion into the container's child span (so the remainder of
the level is never scanned), and the result does not depend on the level's
loop bound — sibling atoms positioned after the container contribute nothing
to the output mapping. -/
theorem readAtom_container_first_return (data : List Nat) (fuel : Nat) (tag : Tag)
    (seek stop : Nat) (path : String)
    (h1 : seek < stop) (h2 : getLongAt data seek true ≠ 0)
    (h3 : isContainerAtom (getStringAt data (seek + 4) 4) = true) :
    readAtomLoop data (fuel + 1) tag seek stop path =
      readAtomLoop data fuel tag
        ((if getStringAt data (seek + 4) 4 = "meta" then seek + 4 else seek) + 8)
        ((if getStringAt data (seek + 4) 4 = "meta" then seek + 4 else seek) + 8 +
          (getLongAt data seek true - 8))
        ((if path = "" then "" else path ++ ".") ++ getStringAt data (seek + 4) 4) ∧
    ∀ stop2, seek < stop2 →
      readAtomLoop data (fuel + 1) tag seek stop2 path =
        readAtomLoop data (fuel + 1) tag seek stop path := by
  have key : ∀ st, seek < st →
      readAtomLoop data (fuel + 1) tag seek st path =
        readAtomLoop data fuel tag
          ((if getStringAt data (seek + 4) 4 = "meta" then seek + 4 else seek) + 8)
          ((if getStringAt data (seek + 4) 4 = "meta" then seek + 4 else seek) + 8 +
            (getLongAt data seek true - 8))
          ((if path = "" then "" else path ++ ".") ++ getStringAt data (seek + 4) 4) := by
    intro st hst
    simp only [readAtomLoop]
    rw [if_pos hst, if_neg h2, if_pos h3]
  exact ⟨key stop h1, fun stop2 hs => (key stop2 hs).trans (key stop h1).symm⟩

/-- Witness for C1 on a concrete source: the root walk over `c2File` equals
the walk of the `moov` child span, and enlarging the root loop bound does not
change the decoded result. -/
theorem readAtom_container_first_return_witness :
    readAtomLoop c2File 5 [] 0 62 "" = readAtomLoop c2File 4 [] 8 62 "moov" ∧
    readAtomLoop c2File 5 [] 0 1000 "" = readAtomLoop c2File 5 [] 0 62 "" := by
  have h := readAtom_container_first_return c2File 4 [] 0 62 "" (by decide) (by decide)
    (by decide)
  exact ⟨h.1.trans (by decide), h.2 1000 (by decide)⟩

/-- C9: in the Value Decoder, a `meta` container found at position `seek`
with nonzero declared size `s` is entered at `seek + 12`, and the child walk
bound is `seek + 12 + (s - 8)`, which for any `s ≥ 8` equals `seek + s + 4` —
exactly 4 bytes past the atom's declared end, so a header starting in those
trailing 4 bytes is processed as a child of `meta`. -/
theorem readAtom_meta_overshoot (data : List Nat) (fuel : Nat) (tag : Tag)
    (seek stop : Nat) (path : String)
    (h1 : seek < stop) (h2 : getLongAt data seek true ≠ 0)
    (h3 : getStringAt data (seek + 4) 4 = "meta") :
    readAtomLoop data (fuel + 1) tag seek stop path =
      readAtomLoop data fuel tag (seek + 12) (seek + 12 + (getLongAt data seek true - 8))
        ((if path = "" then "" else path ++ ".") ++ "meta") ∧
    (8 ≤ getLongAt data seek true →
      seek + 12 + (getLongAt data seek true - 8) = seek + getLongAt data seek true + 4) := by
  have hcont : isContainerAtom (getStringAt data (seek + 4) 4) = true := by
    rw [h3]; decide
  constructor
  · simp only [readAtomLoop]
    rw [if_pos h1, if_neg h2, if_pos hcont, h3]
    have e12 : seek + 4 + 8 = seek + 12 := by omega
    rw [if_pos rfl, e12]
  · intro hs; omega

/-- Witness for C9 on a concrete source: the walk entering the size-20 `meta`
atom of `metaFile` covers positions 12 up to 24 = 0 + 20 + 4. -/
theorem readAtom_meta_overshoot_witness :
    readAtomLoop metaFile 3 [] 0 20 "" = readAtomLoop metaFile 2 [] 12 24 "meta" ∧
    0 + 12 + (getLongAt metaFile 0 true - 8) = 0 + getLongAt metaFile 0 true + 4 := by
  have h := readAtom_meta_overshoot metaFile 2 [] 0 20 "" (by decide) (by decide) (by decide)
  exact ⟨h.1.trans (by decide), h.2 (by decide)⟩

/-- C5: when the Tree Loader reads a `meta` atom at offset `p` (nonzero
size), the byte range it requests before recursing covers `p + 12` to
`p + 20` — offset by header + 4 + 8 for the `next_item_id` field, not by
header + 8 — and on success the recursive child step is entered at offset
`p + 12` with the path extended by `meta`. -/
theorem loadAtom_meta_request (data : List Nat) (fails : Nat → Nat → Bool)
    (fuel offset : Nat) (path : String)
    (h1 : offset < data.length) (h2 : getLongAt data offset true ≠ 0)
    (h3 : getStringAt data (offset + 4) 4 = "meta") :
    (loadAtomGo data fails (fuel + 1) offset path).1.head? =
      some ⟨offset, path, false, offset + 12, offset + 20⟩ ∧
    (fails (offset + 12) (offset + 20) = false →
      loadAtomGo data fails (fuel + 1) offset path =
        (⟨offset, path, false, offset + 12, offset + 20⟩ ::
            (loadAtomGo data fails fuel (offset + 12)
              ((if path = "" then "" else path ++ ".") ++ "meta")).1,
          (loadAtomGo data fails fuel (offset + 12)
            ((if path = "" then "" else path ++ ".") ++ "meta")).2)) := by
  have hcont : isContainerAtom (getStringAt data (offset + 4) 4) = true := by
    rw [h3]; decide
  have e12 : offset + 4 + 8 = offset + 12 := by omega
  have e20 : offset + 12 + 8 = offset + 20 := by omega
  constructor
  · simp only [loadAtomGo]
    rw [if_neg (not_le.mpr h1), if_neg h2, if_pos hcont, h3, if_pos rfl, e12, e20]
    cases hf : fails (offset + 12) (offset + 20) with
    | false => rw [if_neg (by decide : ¬false = true)]; rfl
    | true => rw [if_pos (rfl : true = true)]; rfl
  · intro hf
    simp only [loadAtomGo]
    rw [if_neg (not_le.mpr h1), if_neg h2, if_pos hcont, h3, if_pos rfl, e12, e20,
      if_neg (by rw [hf]; exact Bool.false_ne_true)]

/-- Witness for C5 on a concrete source: for the size-20 `meta` atom at
offset 0 of `metaFile` the loader requests the range 12 to 20 and recurses at
offset 12 under path `meta`. -/
theorem loadAtom_meta_request_witness :
    (loadAtomGo metaFile (fun _ _ => false) 3 0 "").1.head? =
      some ⟨0, "", false, 12, 20⟩ ∧
    loadAtomGo metaFile (fun _ _ => false) 3 0 "" =
      (⟨0, "", false, 12, 20⟩ :: (loadAtomGo metaFile (fun _ _ => false) 2 12 "meta").1,
        (loadAtomGo metaFile (fun _ _ => false) 2 12 "meta").2) := by
  have h := loadAtom_meta_request metaFile (fun _ _ => false) 2 0 "" (by decide) (by decide)
    (by decide)
  exact ⟨h.1.trans (by decide), (h.2 rfl).trans (by decide)⟩

/-- C6: the Tree Loader invokes the success callback and issues no further
range request when the current offset reaches the source's total size or when
the atom at the offset declares size zero — the error callback is never
invoked for these conditions, whatever the underlying load oracle does; and
the Value Decoder, on a zero-size atom, stops walking that level normally,
returning the tag mapping unchanged. -/
theorem loader_decoder_graceful_stop :
    (∀ (data : List Nat) (fails : Nat → Nat → Bool) (fuel offset : Nat) (path : String),
      data.length ≤ offset →
      loadAtomGo data fails (fuel + 1) offset path = ([], LoadOutcome.success)) ∧
    (∀ (data : List Nat) (fails : Nat → Nat → Bool) (fuel offset : Nat) (path : String),
      offset < data.length → getLongAt data offset true = 0 →
      loadAtomGo data fails (fuel + 1) offset path = ([], LoadOutcome.success)) ∧
    (∀ (data : List Nat) (fuel : Nat) (tag : Tag) (seek stop : Nat) (path : String),
      seek < stop → getLongAt data seek true = 0 →
      readAtomLoop data (fuel + 1) tag seek stop path = tag) := by
  refine ⟨?_, ?_, ?_⟩
  · intro data fails fuel offset path h
    simp only [loadAtomGo]
    rw [if_pos h]
  · intro data fails fuel offset path h1 h2
    simp only [loadAtomGo]
    rw [if_neg (not_le.mpr h1), if_pos h2]
  · intro data fuel tag seek stop path h1 h2
    simp only [readAtomLoop]
    rw [if_pos h1, if_pos h2]

/-- Witness for C6 on concrete sources: an empty source, a source whose first
atom declares size zero, and a decoder level starting on a zero-size atom. -/
theorem loader_decoder_graceful_stop_witness :
    loadAtomGo [] (fun _ _ => true) 1 0 "" = ([], LoadOutcome.success) ∧
    loadAtomGo [0, 0, 0, 0, 1] (fun _ _ => true) 1 0 "" = ([], LoadOutcome.success) ∧
    readAtomLoop [0, 0, 0, 0] 1 [("keep", AtomValue.nat 7)] 0 4 "" =
      [("keep", AtomValue.nat 7)] :=
  ⟨loader_decoder_graceful_stop.1 [] (fun _ _ => true) 0 0 "" (by decide),
   loader_decoder_graceful_stop.2.1 [0, 0, 0, 0, 1] (fun _ _ => true) 0 0 "" (by decide)
     (by decide),
   loader_decoder_graceful_stop.2.2 [0, 0, 0, 0] 0 [("keep", AtomValue.nat 7)] 0 4 ""
     (by decide) (by decide)⟩

/-- C10: the decode pass `_parseData` accepts the requested-fields argument
but never reads it: for one loaded source and any two values of that argument
the returned tag mapping is identical. -/
theorem parseData_ignores_requested_fields (data : List Nat)
    (tags1 tags2 : Option (List String)) :
    parseData data tags1 = parseData data tags2 := rfl

/-- Helper: an atom the decoder may read is not the unsupported marker. -/
theorem canReadAtom_ne (atomName : String) (h : canReadAtom atomName = true) :
    atomName ≠ "----" := by
  intro hn
  unfold canReadAtom at h
  rw [if_pos hn] at h
  exact Bool.false_ne_true h

/-- Helper: the storing step never creates a binding for the unsupported
marker when the atom name is not the marker itself. -/
theorem processValueAtom_lookup_dash (data : List Nat) (tag : Tag)
    (seek atomSize : Nat) (atomName : String)
    (hname : atomName ≠ "----") (h : lookupTag tag "----" = none) :
    lookupTag (processValueAtom data tag seek atomSize atomName) "----" = none := by
  unfold processValueAtom
  by_cases h1 : atomName = "trkn"
  · rw [if_pos h1, lookupTag_setTag, if_neg (by decide), lookupTag_setTag,
      if_neg (by decide)]
    exact h
  · rw [if_neg h1]
    by_cases h2 : atomName = "©cmt"
    · rw [if_pos h2, lookupTag_setTag, if_neg (by decide)]; exact h
    · rw [if_neg h2, lookupTag_setTag, if_neg (fun hh => hname hh.symm)]; exact h

/-- C7: for a `trkn` atom under the metadata path the Value Decoder bypasses
the type-table dispatch: it stores the single byte at header offset +16+11
under key `trkn` and the single byte at header offset +16+13 under key
`count`, then continues with the next sibling. -/
theorem readAtom_trkn_bytes (data : List Nat) (fuel : Nat) (tag : Tag)
    (seek stop : Nat) (path : String)
    (h1 : seek < stop) (h2 : getLongAt data seek true ≠ 0)
    (h3 : getStringAt data (seek + 4) 4 = "trkn")
    (h4 : path = "moov.udta.meta.ilst") :
    readAtomLoop data (fuel + 1) tag seek stop path =
      readAtomLoop data fuel
        (setTag (setTag tag "trkn" (AtomValue.nat (getByteAt data (seek + 16 + 11))))
          "count" (AtomValue.nat (getByteAt data (seek + 16 + 13))))
        (seek + getLongAt data seek true) stop path ∧
    lookupTag
        (setTag (setTag tag "trkn" (AtomValue.nat (getByteAt data (seek + 16 + 11))))
          "count" (AtomValue.nat (getByteAt data (seek + 16 + 13)))) "trkn" =
      some (AtomValue.nat (getByteAt data (seek + 16 + 11))) ∧
    lookupTag
        (setTag (setTag tag "trkn" (AtomValue.nat (getByteAt data (seek + 16 + 11))))
          "count" (AtomValue.nat (getByteAt data (seek + 16 + 13)))) "count" =
      some (AtomValue.nat (getByteAt data (seek + 16 + 13))) := by
  have hnc : ¬isContainerAtom (getStringAt data (seek + 4) 4) = true := by
    rw [h3]; decide
  refine ⟨?_, ?_, ?_⟩
  · simp only [readAtomLoop]
    rw [if_pos h1, if_neg h2, if_neg hnc,
      if_pos ⟨h4, by rw [h3]; decide⟩, h3]
    rfl
  · rw [lookupTag_setTag, if_neg (by decide), lookupTag_setTag, if_pos rfl]
  · rw [lookupTag_setTag, if_pos rfl]

/-- Witness for C7 on a concrete source: the `trkn` atom of `trknFile` whose
bytes at header offset +16+11 and +16+13 are 5 and 12 decodes to the bindings
trkn = 5 and count = 12. -/
theorem readAtom_trkn_bytes_witness :
    readAtomLoop trknFile 2 [] 36 66 "moov.udta.meta.ilst" =
      readAtomLoop trknFile 1 [("trkn", AtomValue.nat 5), ("count", AtomValue.nat 12)]
        66 66 "moov.udta.meta.ilst" ∧
    lookupTag [("trkn", AtomValue.nat 5), ("count", AtomValue.nat 12)] "trkn" =
      some (AtomValue.nat 5) ∧
    lookupTag [("trkn", AtomValue.nat 5), ("count", AtomValue.nat 12)] "count" =
      some (AtomValue.nat 12) := by
  have h := readAtom_trkn_bytes trknFile 1 [] 36 66 "moov.udta.meta.ilst" (by decide)
    (by decide) (by decide) rfl
  exact ⟨h.1.trans (by decide), by decide, by decide⟩

/-- C8: the Value Decoder never creates a binding for the unsupported marker
FourCC `----`: any decoder run started from a mapping without that key ends
without it, whatever the source bytes, position, bound and parent path are
(in particular for a `----` value atom under `moov.udta.meta.ilst`). -/
theorem readAtom_never_stores_dash (data : List Nat) :
    ∀ (fuel : Nat) (tag : Tag) (seek stop : Nat) (path : String),
      lookupTag tag "----" = none →
      lookupTag (readAtomLoop data fuel tag seek stop path) "----" = none := by
  intro fuel
  induction fuel with
  | zero => intro tag seek stop path h; exact h
  | succ n ih =>
    intro tag seek stop path h
    simp only [readAtomLoop]
    by_cases h1 : seek < stop
    · rw [if_pos h1]
      by_cases h2 : getLongAt data seek true = 0
      · rw [if_pos h2]; exact h
      · rw [if_neg h2]
        by_cases h3 : isContainerAtom (getStringAt data (seek + 4) 4) = true
        · rw [if_pos h3]; exact ih _ _ _ _ h
        · rw [if_neg h3]
          apply ih
          by_cases h4 : path = "moov.udta.meta.ilst" ∧
              canReadAtom (getStringAt data (seek + 4) 4) = true
          · rw [if_pos h4]
            exact processValueAtom_lookup_dash _ _ _ _ _ (canReadAtom_ne _ h4.2) h
          · rw [if_neg h4]; exact h
    · rw [if_neg h1]; exact h

/-- Witness for C8 on a concrete source: `dashFile` holds a `----` value atom
under `moov.udta.meta.ilst`, and a full decode pass stores nothing under
that key. -/
theorem readAtom_never_stores_dash_witness :
    lookupTag (readAtomLoop dashFile 63 [] 0 62 "") "----" = none :=
  readAtom_never_stores_dash dashFile 63 [] 0 62 "" rfl

/-- Counterexample to C2: in `c2File` the value atom under
`moov.udta.meta.ilst` has the FourCC `abcd`, which is neither a container
name nor present in `ATOMS`, yet the decode pass stores the entry
`abcd = text "AB"` in the output mapping — the code never consults `ATOMS`
before storing. -/
theorem unknownAtom_stored_counterexample :
    isContainerAtom "abcd" = false ∧
    ATOMS "abcd" = none ∧
    lookupTag (parseData c2File none) "abcd" = some (AtomValue.text "AB") :=
  ⟨by decide, rfl, by decide⟩

/-- C2 as amended: a value atom under `moov.udta.meta.ilst` whose FourCC is
not the unsupported marker `----` always gets an entry under its FourCC in
the output mapping, even when the FourCC is absent from `ATOMS`; no error is
possible (the decoder is a total function). -/
theorem unknownAtom_stored (data : List Nat) (fuel : Nat) (tag : Tag)
    (seek stop : Nat) (path : String)
    (h1 : seek < stop) (h2 : getLongAt data seek true ≠ 0)
    (h3 : isContainerAtom (getStringAt data (seek + 4) 4) = false)
    (h4 : getStringAt data (seek + 4) 4 ≠ "----")
    (h5 : path = "moov.udta.meta.ilst")
    (h6 : ATOMS (getStringAt data (seek + 4) 4) = none) :
    (lookupTag (readAtomLoop data (fuel + 1) tag seek stop path)
      (getStringAt data (seek + 4) 4)).isSome = true := by
  simp only [readAtomLoop]
  rw [if_pos h1, if_neg h2, if_neg (by simp [h3]),
    if_pos ⟨h5, by unfold canReadAtom; rw [if_neg h4]⟩]
  exact readAtomLoop_isSome data _ fuel _ _ _ _ (processValueAtom_lookup_self _ _ _ _ _)

/-- Witness for the amended C2 on a concrete source: decoding `c2File` from
the `abcd` atom leaves a binding for `abcd`. -/
theorem unknownAtom_stored_witness :
    (lookupTag (readAtomLoop c2File 27 [] 36 62 "moov.udta.meta.ilst") "abcd").isSome =
      true := by
  have h := unknownAtom_stored c2File 26 [] 36 62 "moov.udta.meta.ilst" (by decide)
    (by decide) (by decide) (by decide) rfl (by decide)
  have e : getStringAt c2File (36 + 4) 4 = "abcd" := by decide
  rw [e] at h
  exact h

/-- Counterexample to C4: in `c4File` the value atom `tmpo` under the
metadata path has type class 21 (uint8) and payload bytes 1, 2 at header
offset +24; the decoder stores 513 = 1 + 256 * 2, the little-endian reading,
whereas the big-endian reading `readUint16At` with the flag set would give
258 — so the payload is not decoded as a big-endian 16-bit integer. -/
theorem uint8_big_endian_counterexample :
    TYPES (getInteger24At c4File (36 + 16 + 1) true) = some "uint8" ∧
    lookupTag (parseData c4File none) "tmpo" = some (AtomValue.nat 513) ∧
    getShortAt c4File (36 + 24) true = 258 ∧
    (513 : Nat) ≠ 258 :=
  ⟨by decide, by decide, by decide, by decide⟩

/-- C4 as amended: a value atom under the metadata path whose type class is
0 or 21 (uint8) is decoded at header offset +24 by `readUint16At` with the
big-endian flag set to false, i.e. as an unsigned 16-bit little-endian
integer (low byte first). -/
theorem uint8_decoded_little_endian (data : List Nat) (fuel : Nat) (tag : Tag)
    (seek stop : Nat) (path : String)
    (h1 : seek < stop) (h2 : getLongAt data seek true ≠ 0)
    (h3 : isContainerAtom (getStringAt data (seek + 4) 4) = false)
    (h4 : getStringAt data (seek + 4) 4 ≠ "----")
    (h5 : getStringAt data (seek + 4) 4 ≠ "trkn")
    (h6 : getStringAt data (seek + 4) 4 ≠ "©cmt")
    (h7 : path = "moov.udta.meta.ilst")
    (h8 : getInteger24At data (seek + 16 + 1) true = 0 ∨
      getInteger24At data (seek + 16 + 1) true = 21) :
    readAtomLoop data (fuel + 1) tag seek stop path =
      readAtomLoop data fuel
        (setTag tag (getStringAt data (seek + 4) 4)
          (AtomValue.nat (getShortAt data (seek + 24) false)))
        (seek + getLongAt data seek true) stop path ∧
    getShortAt data (seek + 24) false =
      getByteAt data (seek + 24) + 256 * getByteAt data (seek + 24 + 1) := by
  constructor
  · simp only [readAtomLoop]
    rw [if_pos h1, if_neg h2, if_neg (by simp [h3]),
      if_pos ⟨h7, by unfold canReadAtom; rw [if_neg h4]⟩]
    unfold processValueAtom
    rw [if_neg h5, if_neg h6]
    have hd : decodeAtomData data seek (getLongAt data seek true) =
        AtomValue.nat (getShortAt data (seek + 24) false) := by
      unfold decodeAtomData
      rcases h8 with h | h <;> rw [h] <;> rfl
    rw [hd]
  · rfl

/-- Witness for the amended C4 on a concrete source: the `tmpo` atom of
`c4File` (class 21, payload bytes 1 then 2) decodes to 513 = 1 + 256 * 2. -/
theorem uint8_decoded_little_endian_witness :
    readAtomLoop c4File 2 [] 36 62 "moov.udta.meta.ilst" =
      readAtomLoop c4File 1 [("tmpo", AtomValue.nat 513)] 62 62 "moov.udta.meta.ilst" ∧
    getShortAt c4File (36 + 24) false = 1 + 256 * 2 := by
  have h := uint8_decoded_little_endian c4File 1 [] 36 62 "moov.udta.meta.ilst"
    (by decide) (by decide) (by decide) (by decide) (by decide) (by decide) rfl
    (Or.inr (by decide))
  exact ⟨h.1.trans (by decide), h.2.trans (by decide)⟩

/-- Sample source: a single root-level value atom `free` of size 16. -/
def freeFile : List Nat :=
  [16, 0, 0, 0, 102, 114, 101, 101, 0, 0, 0, 0, 0, 0, 0, 0]

/-- Counterexample to C3: in `c3File` the atom at offset 52 (`mdat`, size 16)
is a root-level sibling of `moov`, so its parentPath in the sense of the
specification's data model is the empty root path, not the metadata path;
yet the Tree Loader — whose accumulated path string is never popped after it
descends into `ilst` — requests the range 52 to 76 for it, starting at the
atom's own offset 52, strictly before its payload end 52 + 16: the payload
bytes of an atom outside the metadata path are fetched. -/
theorem loader_loads_payload_outside_path_counterexample :
    (52, "") ∈ specAtomPaths c3File 10 0 68 "" ∧
    LoadStep.mk 52 "moov.udta.meta.ilst" true 52 76 ∈
      (loadAtomGo c3File (fun _ _ => false) 10 0 "").1 ∧
    getLongAt c3File 52 true = 16 ∧
    52 < 52 + 16 :=
  ⟨by decide, by decide, by decide, by decide⟩

/-- C3 as amended: every byte range the Tree Loader requests for a value
atom whose loader-maintained parent path string is not `moov.udta.meta.ilst`
starts exactly at the atom's payload end (offset + declared size), so only
the trailing next-header bytes are fetched. (The loader's path string agrees
with the specification's ancestor chain only until a container's extent has
been passed; the counterexample shows the two notions diverge afterwards.) -/
theorem loader_skips_payload_outside_path (data : List Nat) (fails : Nat → Nat → Bool) :
    ∀ (fuel offset : Nat) (path : String) (step : LoadStep),
      step ∈ (loadAtomGo data fails fuel offset path).1 →
      step.isValue = true →
      step.atomPath ≠ "moov.udta.meta.ilst" →
      step.rangeStart = step.atomOffset + getLongAt data step.atomOffset true := by
  intro fuel
  induction fuel with
  | zero =>
    intro offset path step hmem _ _
    simp [loadAtomGo] at hmem
  | succ n ih =>
    intro offset path step hmem hval hpath
    simp only [loadAtomGo] at hmem
    by_cases hb1 : data.length ≤ offset
    · rw [if_pos hb1] at hmem
      exact absurd hmem (List.not_mem_nil step)
    · rw [if_neg hb1] at hmem
      by_cases hb2 : getLongAt data offset true = 0
      · rw [if_pos hb2] at hmem
        exact absurd hmem (List.not_mem_nil step)
      · rw [if_neg hb2] at hmem
        by_cases hb3 : isContainerAtom (getStringAt data (offset + 4) 4) = true
        · rw [if_pos hb3] at hmem
          by_cases hf : fails
              ((if getStringAt data (offset + 4) 4 = "meta" then offset + 4 else offset) + 8)
              ((if getStringAt data (offset + 4) 4 = "meta" then offset + 4 else offset)
                + 8 + 8) = true
          · rw [if_pos hf] at hmem
            have he := List.mem_singleton.mp hmem
            rw [he] at hval
            exact (Bool.false_ne_true hval).elim
          · rw [if_neg hf] at hmem
            rcases List.mem_cons.mp hmem with he | hm
            · rw [he] at hval
              exact (Bool.false_ne_true hval).elim
            · exact ih _ _ _ hm hval hpath
        · rw [if_neg hb3] at hmem
          by_cases hf : fails
              (offset + (if path = "moov.udta.meta.ilst" then 0
                else getLongAt data offset true))
              (offset + getLongAt data offset true + 8) = true
          · rw [if_pos hf] at hmem
            have he := List.mem_singleton.mp hmem
            subst he
            have hp : path ≠ "moov.udta.meta.ilst" := hpath
            show offset + (if path = "moov.udta.meta.ilst" then 0
              else getLongAt data offset true) = offset + getLongAt data offset true
            rw [if_neg hp]
          · rw [if_neg hf] at hmem
            rcases List.mem_cons.mp hmem with he | hm
            · subst he
              have hp : path ≠ "moov.udta.meta.ilst" := hpath
              show offset + (if path = "moov.udta.meta.ilst" then 0
                else getLongAt data offset true) = offset + getLongAt data offset true
              rw [if_neg hp]
            · exact ih _ _ _ hm hval hpath

/-- Witness for the amended C3 on a concrete source: for the root-level
`free` atom of `freeFile` (path string empty, size 16) the loader's request
starts at 16, the atom's payload end. -/
theorem loader_skips_payload_outside_path_witness :
    LoadStep.mk 0 "" true 16 24 ∈ (loadAtomGo freeFile (fun _ _ => false) 2 0 "").1 ∧
    (LoadStep.mk 0 "" true 16 24).rangeStart =
      (LoadStep.mk 0 "" true 16 24).atomOffset +
        getLongAt freeFile (LoadStep.mk 0 "" true 16 24).atomOffset true :=
  ⟨by decide,
   loader_skips_payload_outside_path freeFile (fun _ _ => false) 2 0 ""
     (LoadStep.mk 0 "" true 16 24) (by decide) rfl (by decide)⟩

end MP4
